import Mathlib

/-!
Verification of the MZPJ backend (`src/app.py`): the `RateLimiter`,
`DataValidator` and `LoveStatsService` classes, shallowly embedded in Lean.

Modelling conventions:
* Python values reaching the validators are modelled by `PyValue`; a Python
  `bool` is kept as its own constructor, but the `isinstance(value, int)`
  check accepts it, because `bool` is a subclass of `int` in Python.
* Python `dict`s are modelled as association lists in insertion order;
  `d[k] = v` overwrites the first binding of `k` in place or appends a new
  binding at the end, exactly like a Python dict keeps insertion order.
* `time.time()` timestamps are modelled as integers (an abstract discrete
  clock); only subtraction and comparison are performed on them.
* `datetime.now(timezone.utc).isoformat()` is modelled as an opaque `String`
  parameter `now` supplied by the caller.
-/

namespace MZPJ

/-- A Python runtime value, as far as the validators inspect it. -/
inductive PyValue where
  | none
  | int (n : Int)
  | bool (b : Bool)
  | str (s : String)
  | dict (entries : List (String × PyValue))

/-- `value is None` (Python identity test against `None`). -/
def PyValue.isNoneV : PyValue → Bool
  | .none => true
  | _ => false

/-- Python truthiness (`if value:`): `None`, `0`, `False`, `""` and `{}`
are falsy, everything else is truthy. -/
def PyValue.truthy : PyValue → Bool
  | .none => false
  | .int n => n != 0
  | .bool b => b
  | .str s => s != ""
  | .dict l => !l.isEmpty

/-- `d.get(k)` on a Python dict: the bound value, or `None` when absent. -/
def pyGet (d : List (String × PyValue)) (k : String) : PyValue :=
  match d.lookup k with
  | some v => v
  | Option.none => .none

/-- `d[k] = v` on a Python dict: overwrite the binding of `k` in place,
or append it when `k` is absent (insertion order is preserved). -/
def dictSet {α : Type} : List (String × α) → String → α → List (String × α)
  | [], k, v => [(k, v)]
  | (k', v') :: rest, k, v =>
    if k' = k then (k, v) :: rest else (k', v') :: dictSet rest k v

/-! ## Config (src/app.py lines 29-52) -/

/-- `Config.RATE_LIMIT_WINDOW = 60` (seconds). -/
def RATE_LIMIT_WINDOW : Int := 60

/-- `Config.RATE_LIMIT_MAX = 100` (requests per window). -/
def RATE_LIMIT_MAX : Nat := 100

/-- The seed `benefit_categories` dict of `Config.MOCK_LOVE_STATS`. -/
def seedBenefitCategories : List (String × PyValue) :=
  [("total_donation", .int 714649),
   ("visually_impaired", .int 488540),
   ("medical_staff", .int 133468),
   ("filial_piety", .int 3155),
   ("matsu_resident", .int 1160),
   ("new_resident", .int 1674),
   ("beach_cleanup", .int 3780),
   ("allpass", .int 78807)]

/-- The mutable global statistics record (`Config.MOCK_LOVE_STATS`),
with the nested `benefit_categories` dict inlined as a field. -/
structure StatsRecord where
  donation : PyValue
  benefit_categories : List (String × PyValue)
  last_updated : String

/-- `Config.MOCK_LOVE_STATS` at startup; `t0` is the import-time timestamp
stored in `last_updated`. -/
def MOCK_LOVE_STATS (t0 : String) : StatsRecord :=
  { donation := .int 714649
    benefit_categories := seedBenefitCategories
    last_updated := t0 }

/-! ## DataValidator (src/app.py lines 95-147) -/

/-- `DataValidator.validate_positive_integer(value, field_name)`:
`None` is allowed; otherwise the value must satisfy
`isinstance(value, int) and value >= 0`.  Python `bool` is a subclass of
`int` whose values `False`/`True` are `0`/`1`, so booleans pass the check. -/
def validate_positive_integer (value : PyValue) (field_name : String) :
    Bool × Option String :=
  match value with
  | .none => (true, Option.none)
  | .int n =>
    if n < 0 then
      (false, some ("Invalid value for " ++ field_name ++ ": must be a positive integer"))
    else (true, Option.none)
  | .bool _ => (true, Option.none)
  | _ => (false, some ("Invalid value for " ++ field_name ++ ": must be a positive integer"))

/-- The loop body of `validate_benefit_categories`: walk the entries in
insertion order; reject the first unknown key or invalid value. -/
def validateCategoryEntries (allowed : List String) :
    List (String × PyValue) → Bool × Option String
  | [] => (true, Option.none)
  | (key, value) :: rest =>
    if key ∈ allowed then
      match validate_positive_integer value key with
      | (true, _) => validateCategoryEntries allowed rest
      | (false, msg) => (false, msg)
    else (false, some ("Unknown benefit category: " ++ key))

/-- `DataValidator.validate_benefit_categories(categories)`.  The allowed
key set is read from the live `Config.MOCK_LOVE_STATS["benefit_categories"]`
dict, so it is passed in as `allowed`. -/
def validate_benefit_categories (allowed : List String) (categories : PyValue) :
    Bool × Option String :=
  match categories with
  | .none => (true, Option.none)
  | .dict l => validateCategoryEntries allowed l
  | _ => (false, some "benefit_categories must be a dictionary")

/-! ## LoveStatsService.update_stats (src/app.py lines 172-213) -/

/-- The update loop over `benefit_categories.items()`: each non-`None`
value overwrites that single category. -/
def applyCategories (cats : List (String × PyValue))
    (l : List (String × PyValue)) : List (String × PyValue) :=
  l.foldl (fun acc p => if p.2.isNoneV then acc else dictSet acc p.1 p.2) cats

/-- `LoveStatsService.update_stats(data)` acting on the global record `r`;
`now` is the timestamp produced by `datetime.now(timezone.utc).isoformat()`.
Returns the `(success, error_message)` pair together with the record after
the call. -/
def update_stats (data : List (String × PyValue)) (r : StatsRecord)
    (now : String) : (Bool × Option String) × StatsRecord :=
  let donation := pyGet data "donation"
  match validate_positive_integer donation "donation" with
  | (false, msg) => ((false, msg), r)
  | (true, _) =>
    let benefit_categories := pyGet data "benefit_categories"
    match validate_benefit_categories (r.benefit_categories.map Prod.fst)
        benefit_categories with
    | (false, msg) => ((false, msg), r)
    | (true, _) =>
      let r := if donation.isNoneV then r else { r with donation := donation }
      let r :=
        match benefit_categories with
        | .dict l =>
          if PyValue.truthy (.dict l) then
            { r with benefit_categories := applyCategories r.benefit_categories l }
          else r
        | _ => r
      ((true, Option.none), { r with last_updated := now })

/-! ## RateLimiter (src/app.py lines 55-89) -/

/-- `RateLimiter.request_counts`: per-identifier timestamp lists. -/
abbrev RLState := List (String × List Int)

/-- Read an identifier's window (`[]` when the key is absent). -/
def windowOf (s : RLState) (ip : String) : List Int :=
  match s.lookup ip with
  | some l => l
  | Option.none => []

/-- The purge on lines 78-81: keep timestamps with
`current_time - req_time < Config.RATE_LIMIT_WINDOW`. -/
def purgedWindow (s : RLState) (ip : String) (current_time : Int) : List Int :=
  (windowOf s ip).filter (fun t => current_time - t < RATE_LIMIT_WINDOW)

/-- `RateLimiter.is_allowed(ip)` at clock value `current_time`: initialise
the bucket if absent, purge expired timestamps, reject when the remaining
count reaches `RATE_LIMIT_MAX`, otherwise record the current timestamp. -/
def is_allowed (s : RLState) (ip : String) (current_time : Int) :
    Bool × RLState :=
  let s := if (s.lookup ip).isNone then dictSet s ip [] else s
  let purged := purgedWindow s ip current_time
  let s := dictSet s ip purged
  if RATE_LIMIT_MAX ≤ purged.length then (false, s)
  else (true, dictSet s ip (purged ++ [current_time]))

/-- A sequence of `is_allowed` calls for one identifier at the given clock
values, collecting the results in order. -/
def runSeq (s : RLState) (ip : String) : List Int → RLState × List Bool
  | [] => (s, [])
  | t :: ts =>
    let r := is_allowed s ip t
    let rest := runSeq r.2 ip ts
    (rest.1, r.1 :: rest.2)

/-- A sequence of `is_allowed` calls for arbitrary identifiers, starting
from the limiter's initial empty state. -/
def runLimiter (calls : List (String × Int)) : RLState :=
  calls.foldl (fun s c => (is_allowed s c.1 c.2).2) []

/-! ## Heap model for `LoveStatsService.get_current_stats`
(src/app.py lines 153-170)

`get_current_stats` performs `Config.MOCK_LOVE_STATS.copy()`, a *shallow*
dict copy, so object identity matters for its claims.  Dicts live in a heap
of cells addressed by `Nat`; a dict entry is either an immediate value or a
reference to another cell. -/

/-- A value stored in a heap dict: an immediate int/string or a reference
to another heap cell. -/
inductive HVal where
  | int (n : Int)
  | str (s : String)
  | ref (addr : Nat)
  deriving DecidableEq

/-- A Python dict object: entries in insertion order. -/
abbrev HDict := List (String × HVal)

/-- The heap: dict objects addressed by position. -/
structure Heap where
  cells : List HDict
  deriving DecidableEq

/-- Dereference an address (missing addresses read as the empty dict). -/
def Heap.read (h : Heap) (a : Nat) : HDict := h.cells.getD a []

/-- Replace the dict object at an address. -/
def Heap.write (h : Heap) (a : Nat) (d : HDict) : Heap := ⟨h.cells.set a d⟩

/-- Allocate a fresh dict object, returning the new heap and its address. -/
def Heap.alloc (h : Heap) (d : HDict) : Heap × Nat :=
  (⟨h.cells ++ [d]⟩, h.cells.length)

/-- The address of `Config.MOCK_LOVE_STATS`. -/
def statsAddr : Nat := 0

/-- The heap after module import: `Config.MOCK_LOVE_STATS` at address 0,
its nested `benefit_categories` dict at address 1; `t0` is the import-time
timestamp. -/
def initHeap (t0 : String) : Heap :=
  ⟨[[("donation", .int 714649),
     ("benefit_categories", .ref 1),
     ("last_updated", .str t0)],
    [("total_donation", .int 714649),
     ("visually_impaired", .int 488540),
     ("medical_staff", .int 133468),
     ("filial_piety", .int 3155),
     ("matsu_resident", .int 1160),
     ("new_resident", .int 1674),
     ("beach_cleanup", .int 3780),
     ("allpass", .int 78807)]]⟩

/-- `LoveStatsService.get_current_stats()` on heap `h`:
`stats = Config.MOCK_LOVE_STATS.copy()` allocates a new top-level dict with
the same entries (nested references included), then `stats["updatedAt"]` is
set from `stats["last_updated"]` when present, else from the current time.
Returns the heap and the address of the returned dict. -/
def get_current_stats (h : Heap) (now : String) : Heap × Nat :=
  let alloc := h.alloc (h.read statsAddr)
  let h := alloc.1
  let a := alloc.2
  let stats := h.read a
  let stats :=
    match stats.lookup "last_updated" with
    | some v => dictSet stats "updatedAt" v
    | Option.none => dictSet stats "updatedAt" (.str now)
  (h.write a stats, a)

/-- Read one benefit-category value of the record stored at `statsAddr`,
following its `benefit_categories` reference. -/
def readStoredCategory (h : Heap) (k : String) : Option HVal :=
  match (h.read statsAddr).lookup "benefit_categories" with
  | some (.ref b) => (h.read b).lookup k
  | _ => Option.none

/-- A client mutation `snapshot["benefit_categories"][key] = value`
performed on the dict returned by `get_current_stats` at address `a`. -/
def mutateSnapshotCategory (h : Heap) (a : Nat) (k : String) (v : HVal) :
    Heap :=
  match (h.read a).lookup "benefit_categories" with
  | some (.ref b) => h.write b (dictSet (h.read b) k v)
  | _ => h

/-! ## Association-list lemmas -/

theorem lookup_dictSet_self {α : Type} (l : List (String × α)) (k : String)
    (v : α) : (dictSet l k v).lookup k = some v := by
  induction l with
  | nil => simp [dictSet, List.lookup]
  | cons p rest ih =>
    by_cases h : p.1 = k
    · simp [dictSet, h, List.lookup]
    · have hb : (k == p.1) = false := by
        simp only [beq_eq_false_iff_ne]
        exact Ne.symm h
      simp [dictSet, h, List.lookup, hb, ih]

theorem lookup_dictSet_ne {α : Type} (l : List (String × α)) (k k' : String)
    (v : α) (h : k' ≠ k) : (dictSet l k v).lookup k' = l.lookup k' := by
  have hb : (k' == k) = false := by
    simp only [beq_eq_false_iff_ne]
    exact h
  induction l with
  | nil => simp [dictSet, List.lookup, hb]
  | cons p rest ih =>
    by_cases hp : p.1 = k
    · subst hp
      simp [dictSet, List.lookup, hb]
    · cases hkb : (k' == p.1) with
      | true => simp [dictSet, hp, List.lookup, hkb]
      | false => simp [dictSet, hp, List.lookup, hkb, ih]

theorem keys_dictSet_of_mem {α : Type} (l : List (String × α)) (k : String)
    (v : α) (h : k ∈ l.map Prod.fst) :
    (dictSet l k v).map Prod.fst = l.map Prod.fst := by
  induction l with
  | nil => simp at h
  | cons p rest ih =>
    by_cases hp : p.1 = k
    · simp [dictSet, hp]
    · rcases List.mem_cons.mp h with h | h
      · exact absurd h.symm hp
      · simp [dictSet, hp, ih h]

theorem mem_dictSet {α : Type} (l : List (String × α)) (k : String) (v : α)
    (p : String × α) (hp : p ∈ dictSet l k v) : p = (k, v) ∨ p ∈ l := by
  induction l with
  | nil => simpa [dictSet] using hp
  | cons q rest ih =>
    by_cases hq : q.1 = k
    · rcases List.mem_cons.mp (by simpa [dictSet, hq] using hp) with hp' | hp'
      · exact Or.inl hp'
      · exact Or.inr (List.mem_cons_of_mem _ hp')
    · rcases List.mem_cons.mp (by simpa [dictSet, hq] using hp) with hp' | hp'
      · exact Or.inr (by simp [hp'])
      · rcases ih hp' with h | h
        · exact Or.inl h
        · exact Or.inr (List.mem_cons_of_mem _ h)

theorem lookup_eq_none_of_not_mem {α : Type} (l : List (String × α))
    (k : String) (h : k ∉ l.map Prod.fst) : l.lookup k = Option.none := by
  induction l with
  | nil => simp [List.lookup]
  | cons p rest ih =>
    have h1 : k ≠ p.1 := fun he => h (by simp [he])
    have h2 : k ∉ rest.map Prod.fst := fun hm => h (by simp [List.map_cons, hm])
    have hb : (k == p.1) = false := by
      simp only [beq_eq_false_iff_ne]
      exact h1
    simp [List.lookup, hb, ih h2]

theorem pyGet_eq_none_of_not_mem (data : List (String × PyValue)) (k : String)
    (h : k ∉ data.map Prod.fst) : pyGet data k = .none := by
  simp [pyGet, lookup_eq_none_of_not_mem data k h]

/-! ## Validator lemmas -/

theorem vpi_fst_true_iff_snd_none (v : PyValue) (k : String) :
    (validate_positive_integer v k).1 = true ↔
      (validate_positive_integer v k).2 = Option.none := by
  cases v with
  | int n =>
    by_cases h : n < 0 <;> simp [validate_positive_integer, h]
  | none => simp [validate_positive_integer]
  | bool b => simp [validate_positive_integer]
  | str s => simp [validate_positive_integer]
  | dict l => simp [validate_positive_integer]

theorem vpi_false_isSome (v : PyValue) (k : String)
    (h : (validate_positive_integer v k).1 = false) :
    ((validate_positive_integer v k).2).isSome = true := by
  cases hv : (validate_positive_integer v k).2 with
  | some msg => rfl
  | none =>
    have := (vpi_fst_true_iff_snd_none v k).mpr hv
    simp [this] at h

/-- The first validation error among a dict's entries, if any: an unknown
key or an invalid value, whichever comes first in insertion order. -/
def firstCategoryError (allowed : List String)
    (l : List (String × PyValue)) : Option String :=
  l.findSome? (fun p =>
    if p.1 ∈ allowed then (validate_positive_integer p.2 p.1).2
    else some ("Unknown benefit category: " ++ p.1))

theorem validateCategoryEntries_eq_firstCategoryError (allowed : List String)
    (l : List (String × PyValue)) :
    validateCategoryEntries allowed l =
      (match firstCategoryError allowed l with
       | Option.none => (true, Option.none)
       | some e => (false, some e)) := by
  induction l with
  | nil => simp [validateCategoryEntries, firstCategoryError]
  | cons p rest ih =>
    by_cases hk : p.1 ∈ allowed
    · cases hval : validate_positive_integer p.2 p.1 with
      | mk b msg =>
        cases b
        · have hs : ((validate_positive_integer p.2 p.1).2).isSome = true :=
            vpi_false_isSome p.2 p.1 (by simp [hval])
          rcases Option.isSome_iff_exists.mp hs with ⟨m, hm⟩
          rw [hval] at hm
          subst hm
          simp [validateCategoryEntries, firstCategoryError, hk, hval,
            List.findSome?]
        · have hnone : msg = Option.none := by
            have := (vpi_fst_true_iff_snd_none p.2 p.1).mp (by simp [hval])
            rw [hval] at this
            exact this
          subst hnone
          simp only [validateCategoryEntries, firstCategoryError, hk,
            if_pos hk, hval, List.findSome?_cons]
          simpa [firstCategoryError] using ih
    · simp [validateCategoryEntries, firstCategoryError, hk, List.findSome?]

theorem vbc_fst_true_of_entries (allowed : List String)
    (l : List (String × PyValue))
    (h : (validateCategoryEntries allowed l).1 = true) :
    ∀ p ∈ l, p.1 ∈ allowed ∧ (validate_positive_integer p.2 p.1).1 = true := by
  induction l with
  | nil => intro p hp; simp at hp
  | cons q rest ih =>
    intro p hp
    by_cases hk : q.1 ∈ allowed
    · cases hval : validate_positive_integer q.2 q.1 with
      | mk b msg =>
        cases b
        · rw [validateCategoryEntries, if_pos hk, hval] at h
          simp at h
        · rw [validateCategoryEntries, if_pos hk, hval] at h
          rcases List.mem_cons.mp hp with hp' | hp'
          · subst hp'
            exact ⟨hk, by simp [hval]⟩
          · exact ih h p hp'
    · rw [validateCategoryEntries, if_neg hk] at h
      simp at h

/-- Inputs accepted by `validate_benefit_categories` are `None` or a dict. -/
theorem vbc_shape (allowed : List String) (c : PyValue)
    (h : (validate_benefit_categories allowed c).1 = true) :
    c = .none ∨ ∃ l, c = .dict l := by
  cases c with
  | none => exact Or.inl rfl
  | dict l => exact Or.inr ⟨l, rfl⟩
  | int n => simp [validate_benefit_categories] at h
  | bool b => simp [validate_benefit_categories] at h
  | str s => simp [validate_benefit_categories] at h

theorem vbc_false_isSome (allowed : List String) (c : PyValue)
    (h : (validate_benefit_categories allowed c).1 = false) :
    ((validate_benefit_categories allowed c).2).isSome = true := by
  cases c with
  | none => simp [validate_benefit_categories] at h
  | int n => simp [validate_benefit_categories]
  | bool b => simp [validate_benefit_categories]
  | str s => simp [validate_benefit_categories]
  | dict l =>
    rw [validate_benefit_categories] at h ⊢
    rw [validateCategoryEntries_eq_firstCategoryError] at h ⊢
    cases hf : firstCategoryError allowed l with
    | none => simp [hf] at h
    | some e => simp [hf]

/-! ## update_stats path lemmas -/

/-- The `benefit_categories` entries of a payload (`[]` when the field is
absent or `None`). -/
def payloadCats (data : List (String × PyValue)) : List (String × PyValue) :=
  match pyGet data "benefit_categories" with
  | .dict l => l
  | _ => []

theorem update_stats_failure (data : List (String × PyValue))
    (r : StatsRecord) (now : String)
    (h : (validate_positive_integer (pyGet data "donation") "donation").1 = false ∨
      (validate_benefit_categories (r.benefit_categories.map Prod.fst)
        (pyGet data "benefit_categories")).1 = false) :
    (update_stats data r now).1.1 = false ∧
    ((update_stats data r now).1.2).isSome = true ∧
    (update_stats data r now).2 = r := by
  cases hd : validate_positive_integer (pyGet data "donation") "donation" with
  | mk b1 m1 =>
    cases b1
    · have hs := vpi_false_isSome (pyGet data "donation") "donation" (by simp [hd])
      rw [hd] at hs
      refine ⟨?_, ?_, ?_⟩ <;> simp [update_stats, hd, hs]
    · rcases h with h | h
      · rw [hd] at h
        simp at h
      · cases hb : validate_benefit_categories (r.benefit_categories.map Prod.fst)
            (pyGet data "benefit_categories") with
        | mk b2 m2 =>
          cases b2
          · have hs := vbc_false_isSome (r.benefit_categories.map Prod.fst)
              (pyGet data "benefit_categories") (by simp [hb])
            rw [hb] at hs
            refine ⟨?_, ?_, ?_⟩ <;> simp [update_stats, hd, hb, hs]
          · rw [hb] at h
            simp at h

theorem applyCategories_cons (cats : List (String × PyValue))
    (q : String × PyValue) (rest : List (String × PyValue)) :
    applyCategories cats (q :: rest) =
      applyCategories (if q.2.isNoneV then cats else dictSet cats q.1 q.2)
        rest := rfl

theorem update_stats_success (data : List (String × PyValue))
    (r : StatsRecord) (now : String)
    (hd : (validate_positive_integer (pyGet data "donation") "donation").1 = true)
    (hb : (validate_benefit_categories (r.benefit_categories.map Prod.fst)
        (pyGet data "benefit_categories")).1 = true) :
    (update_stats data r now).1 = (true, Option.none) ∧
    (update_stats data r now).2 =
      { donation := if (pyGet data "donation").isNoneV then r.donation
                    else pyGet data "donation"
        benefit_categories :=
          applyCategories r.benefit_categories (payloadCats data)
        last_updated := now } := by
  obtain ⟨m1, hd'⟩ : ∃ m,
      validate_positive_integer (pyGet data "donation") "donation"
        = (true, m) :=
    ⟨(validate_positive_integer (pyGet data "donation") "donation").2,
      by rw [← hd]⟩
  obtain ⟨m2, hb'⟩ : ∃ m,
      validate_benefit_categories (r.benefit_categories.map Prod.fst)
        (pyGet data "benefit_categories") = (true, m) :=
    ⟨(validate_benefit_categories (r.benefit_categories.map Prod.fst)
        (pyGet data "benefit_categories")).2, by rw [← hb]⟩
  rcases vbc_shape _ _ hb with hshape | ⟨l, hshape⟩
  · rw [hshape] at hb'
    constructor
    · simp only [update_stats, hd', hshape, hb']
    · simp only [update_stats, hd', hshape, hb', payloadCats]
      by_cases hn : (pyGet data "donation").isNoneV <;>
        simp [hn, applyCategories]
  · rw [hshape] at hb'
    constructor
    · simp only [update_stats, hd', hshape, hb']
    · simp only [update_stats, hd', hshape, hb', payloadCats]
      cases l with
      | nil =>
        by_cases hn : (pyGet data "donation").isNoneV <;>
          simp [hn, PyValue.truthy, applyCategories]
      | cons q rest =>
        by_cases hn : (pyGet data "donation").isNoneV <;>
          simp [hn, PyValue.truthy]

theorem lookup_applyCategories (l cats : List (String × PyValue))
    (hnd : (l.map Prod.fst).Nodup) (k : String) :
    (applyCategories cats l).lookup k =
      (match l.lookup k with
       | some v => if v.isNoneV then cats.lookup k else some v
       | Option.none => cats.lookup k) := by
  induction l generalizing cats with
  | nil => rfl
  | cons q rest ih =>
    obtain ⟨qk, qv⟩ := q
    have hnd1 : (qk :: rest.map Prod.fst).Nodup := by simpa using hnd
    have hnd' : (rest.map Prod.fst).Nodup := (List.nodup_cons.mp hnd1).2
    have hqnot : qk ∉ rest.map Prod.fst := (List.nodup_cons.mp hnd1).1
    rw [applyCategories_cons]
    by_cases hk : k = qk
    · subst hk
      have hrest : rest.lookup k = Option.none :=
        lookup_eq_none_of_not_mem rest k hqnot
      rw [ih _ hnd', hrest]
      by_cases hq : PyValue.isNoneV qv
      · simp [List.lookup, hq]
      · simp [List.lookup, hq, lookup_dictSet_self]
    · have hb : (k == qk) = false := by
        simp only [beq_eq_false_iff_ne]
        exact hk
      rw [ih _ hnd']
      by_cases hq : PyValue.isNoneV qv
      · simp [List.lookup, hb, hq]
      · cases hr : rest.lookup k with
        | none => simp [List.lookup, hb, hq, hr,
            lookup_dictSet_ne cats qk k qv hk]
        | some v => simp [List.lookup, hb, hq, hr,
            lookup_dictSet_ne cats qk k qv hk]

/-! ## Claim theorems -/

/-- C7: `validate_benefit_categories` accepts `None`; rejects every
non-mapping input with exactly `benefit_categories must be a dictionary`;
rejects a key outside the allowed set with exactly
`Unknown benefit category: {key}`; checks each value with the
positive-integer rule of `validate_positive_integer`; and the first failure
in insertion order (captured by `firstCategoryError`) short-circuits and is
the returned result. -/
theorem c7_validate_benefit_categories_spec (allowed : List String) :
    validate_benefit_categories allowed .none = (true, Option.none) ∧
    (∀ n : Int, validate_benefit_categories allowed (.int n)
        = (false, some "benefit_categories must be a dictionary")) ∧
    (∀ b : Bool, validate_benefit_categories allowed (.bool b)
        = (false, some "benefit_categories must be a dictionary")) ∧
    (∀ s : String, validate_benefit_categories allowed (.str s)
        = (false, some "benefit_categories must be a dictionary")) ∧
    (∀ l : List (String × PyValue), validate_benefit_categories allowed (.dict l)
        = match firstCategoryError allowed l with
          | Option.none => (true, Option.none)
          | some e => (false, some e)) :=
  ⟨rfl, fun _ => rfl, fun _ => rfl, fun _ => rfl,
    fun l => validateCategoryEntries_eq_firstCategoryError allowed l⟩

/-- C1: when validation of the `donation` field or of the
`benefit_categories` field fails, `update_stats` returns `(false, message)`
and the record after the call is exactly the record before it — both
validations run before any mutation. -/
theorem c1_update_stats_validation_failure (data : List (String × PyValue))
    (r : StatsRecord) (now : String)
    (h : (validate_positive_integer (pyGet data "donation") "donation").1 = false ∨
      (validate_benefit_categories (r.benefit_categories.map Prod.fst)
        (pyGet data "benefit_categories")).1 = false) :
    (update_stats data r now).1.1 = false ∧
    ((update_stats data r now).1.2).isSome = true ∧
    (update_stats data r now).2 = r :=
  update_stats_failure data r now h

/-- Witness for C1: the payload `{donation: -1}` fails validation and the
stored record is returned unchanged. -/
theorem c1_witness :
    ((validate_positive_integer
        (pyGet [("donation", PyValue.int (-1))] "donation") "donation").1 = false ∨
      (validate_benefit_categories
        ((MOCK_LOVE_STATS "t0").benefit_categories.map Prod.fst)
        (pyGet [("donation", PyValue.int (-1))] "benefit_categories")).1 = false) ∧
    (update_stats [("donation", PyValue.int (-1))] (MOCK_LOVE_STATS "t0") "t1").2
      = MOCK_LOVE_STATS "t0" :=
  ⟨Or.inl (by decide),
    (c1_update_stats_validation_failure [("donation", PyValue.int (-1))]
      (MOCK_LOVE_STATS "t0") "t1" (Or.inl (by decide))).2.2⟩

/-- C9: a payload containing neither a `donation` key nor a
`benefit_categories` key passes validation, returns `(true, None)`, leaves
`donation` and all benefit categories unchanged, and overwrites
`last_updated` with the current timestamp. -/
theorem c9_update_stats_no_fields (data : List (String × PyValue))
    (r : StatsRecord) (now : String)
    (h1 : "donation" ∉ data.map Prod.fst)
    (h2 : "benefit_categories" ∉ data.map Prod.fst) :
    (update_stats data r now).1 = (true, Option.none) ∧
    (update_stats data r now).2.donation = r.donation ∧
    (update_stats data r now).2.benefit_categories = r.benefit_categories ∧
    (update_stats data r now).2.last_updated = now := by
  have hd := pyGet_eq_none_of_not_mem data "donation" h1
  have hb := pyGet_eq_none_of_not_mem data "benefit_categories" h2
  refine ⟨?_, ?_, ?_, ?_⟩ <;>
    simp [update_stats, hd, hb, validate_positive_integer,
      validate_benefit_categories, PyValue.isNoneV]

/-- Witness for C9: the empty payload at the seed record. -/
theorem c9_witness :
    "donation" ∉ ([] : List (String × PyValue)).map Prod.fst ∧
    "benefit_categories" ∉ ([] : List (String × PyValue)).map Prod.fst ∧
    (update_stats [] (MOCK_LOVE_STATS "t0") "t1").1 = (true, Option.none) ∧
    (update_stats [] (MOCK_LOVE_STATS "t0") "t1").2.last_updated = "t1" :=
  ⟨by simp, by simp,
    (c9_update_stats_no_fields [] (MOCK_LOVE_STATS "t0") "t1"
      (by simp) (by simp)).1,
    (c9_update_stats_no_fields [] (MOCK_LOVE_STATS "t0") "t1"
      (by simp) (by simp)).2.2.2⟩

/-- C10: `validate_positive_integer` accepts Python booleans (a `bool` is
an instance of `int`) and accepts `0` despite the "positive integer"
message wording, so `update_stats` with a boolean donation or a boolean
category value succeeds and stores the boolean in the record. -/
theorem c10_booleans_and_zero_accepted :
    validate_positive_integer (.bool true) "donation" = (true, Option.none) ∧
    validate_positive_integer (.bool false) "donation" = (true, Option.none) ∧
    validate_positive_integer (.int 0) "donation" = (true, Option.none) ∧
    (update_stats [("donation", PyValue.bool true)]
      (MOCK_LOVE_STATS "t0") "t1").1 = (true, Option.none) ∧
    (update_stats [("donation", PyValue.bool true)]
      (MOCK_LOVE_STATS "t0") "t1").2.donation = .bool true ∧
    (update_stats [("benefit_categories",
        PyValue.dict [("allpass", PyValue.bool false)])]
      (MOCK_LOVE_STATS "t0") "t1").2.benefit_categories.lookup "allpass"
      = some (.bool false) :=
  ⟨rfl, rfl, rfl, rfl, rfl, rfl⟩

/-- C6: for a payload that passes both validations (with distinct category
keys, as in a Python dict), `update_stats` succeeds, overwrites `donation`
iff the field is present and non-null, overwrites exactly the categories
bound to a non-null value in the payload, leaves every category absent from
the payload unchanged, and sets `last_updated` to the current timestamp. -/
theorem c6_update_stats_frame (data : List (String × PyValue))
    (r : StatsRecord) (now : String)
    (hd : (validate_positive_integer (pyGet data "donation") "donation").1 = true)
    (hb : (validate_benefit_categories (r.benefit_categories.map Prod.fst)
        (pyGet data "benefit_categories")).1 = true)
    (hnd : ((payloadCats data).map Prod.fst).Nodup) :
    (update_stats data r now).1 = (true, Option.none) ∧
    (update_stats data r now).2.last_updated = now ∧
    (update_stats data r now).2.donation =
      (if (pyGet data "donation").isNoneV then r.donation
       else pyGet data "donation") ∧
    ∀ k, ((update_stats data r now).2.benefit_categories).lookup k =
      (match (payloadCats data).lookup k with
       | some v => if v.isNoneV then r.benefit_categories.lookup k else some v
       | Option.none => r.benefit_categories.lookup k) := by
  obtain ⟨hres, hrec⟩ := update_stats_success data r now hd hb
  refine ⟨hres, by rw [hrec], by rw [hrec], fun k => ?_⟩
  rw [hrec]
  exact lookup_applyCategories (payloadCats data) r.benefit_categories hnd k

/-- Witness for C6: the payload
`{donation: 800000, benefit_categories: {medical_staff: 140000}}` at the
seed record. -/
theorem c6_witness :
    (validate_positive_integer
      (pyGet [("donation", PyValue.int 800000),
        ("benefit_categories",
          PyValue.dict [("medical_staff", PyValue.int 140000)])] "donation")
      "donation").1 = true ∧
    (validate_benefit_categories
      ((MOCK_LOVE_STATS "t0").benefit_categories.map Prod.fst)
      (pyGet [("donation", PyValue.int 800000),
        ("benefit_categories",
          PyValue.dict [("medical_staff", PyValue.int 140000)])]
        "benefit_categories")).1 = true ∧
    ((payloadCats [("donation", PyValue.int 800000),
        ("benefit_categories",
          PyValue.dict [("medical_staff", PyValue.int 140000)])]).map
      Prod.fst).Nodup ∧
    (update_stats [("donation", PyValue.int 800000),
        ("benefit_categories",
          PyValue.dict [("medical_staff", PyValue.int 140000)])]
      (MOCK_LOVE_STATS "t0") "t1").1 = (true, Option.none) ∧
    (update_stats [("donation", PyValue.int 800000),
        ("benefit_categories",
          PyValue.dict [("medical_staff", PyValue.int 140000)])]
      (MOCK_LOVE_STATS "t0") "t1").2.last_updated = "t1" :=
  ⟨by decide, by decide, by decide,
    (c6_update_stats_frame _ (MOCK_LOVE_STATS "t0") "t1"
      (by decide) (by decide) (by decide)).1,
    (c6_update_stats_frame _ (MOCK_LOVE_STATS "t0") "t1"
      (by decide) (by decide) (by decide)).2.1⟩

/-! ## StatsRecord invariants (C3) -/

/-- The numeric value of a Python `int` (a `bool` counts as `0`/`1`),
`None` when the value is not an instance of `int`. -/
def pyNumVal : PyValue → Option Int
  | .int n => some n
  | .bool b => some (if b then 1 else 0)
  | _ => Option.none

/-- The value is a Python `int` (bool included) with numeric value ≥ 0. -/
def NonNeg (v : PyValue) : Prop := ∃ n, pyNumVal v = some n ∧ 0 ≤ n

/-- The StatsRecord invariants: `donation` and every benefit-category value
are non-negative integers, and the category keys are exactly the seed keys. -/
def StatsInv (r : StatsRecord) : Prop :=
  NonNeg r.donation ∧
  r.benefit_categories.map Prod.fst = seedBenefitCategories.map Prod.fst ∧
  ∀ p ∈ r.benefit_categories, NonNeg p.2

theorem nonNeg_of_valid (v : PyValue) (k : String)
    (hv : (validate_positive_integer v k).1 = true)
    (hn : v.isNoneV = false) : NonNeg v := by
  cases v with
  | none => simp [PyValue.isNoneV] at hn
  | int n =>
    by_cases h : n < 0
    · simp [validate_positive_integer, h] at hv
    · exact ⟨n, rfl, by omega⟩
  | bool b =>
    refine ⟨if b then 1 else 0, rfl, ?_⟩
    cases b <;> norm_num
  | str s => simp [validate_positive_integer] at hv
  | dict l => simp [validate_positive_integer] at hv

theorem keys_applyCategories (l cats : List (String × PyValue))
    (h : ∀ p ∈ l, p.1 ∈ cats.map Prod.fst) :
    (applyCategories cats l).map Prod.fst = cats.map Prod.fst := by
  induction l generalizing cats with
  | nil => rfl
  | cons q rest ih =>
    have hq := h q (List.mem_cons_self q rest)
    rw [applyCategories_cons]
    by_cases hn : q.2.isNoneV
    · rw [if_pos hn]
      exact ih cats (fun p hp => h p (List.mem_cons_of_mem q hp))
    · rw [if_neg hn]
      have hkeys := keys_dictSet_of_mem cats q.1 q.2 hq
      rw [ih (dictSet cats q.1 q.2)
        (fun p hp => hkeys ▸ h p (List.mem_cons_of_mem q hp))]
      exact hkeys

theorem nonNeg_applyCategories (l cats : List (String × PyValue))
    (hc : ∀ p ∈ cats, NonNeg p.2)
    (hl : ∀ p ∈ l, (validate_positive_integer p.2 p.1).1 = true) :
    ∀ p ∈ applyCategories cats l, NonNeg p.2 := by
  induction l generalizing cats with
  | nil => exact hc
  | cons q rest ih =>
    rw [applyCategories_cons]
    by_cases hn : q.2.isNoneV
    · rw [if_pos hn]
      exact ih cats hc (fun p hp => hl p (List.mem_cons_of_mem q hp))
    · rw [if_neg hn]
      refine ih (dictSet cats q.1 q.2) ?_
        (fun p hp => hl p (List.mem_cons_of_mem q hp))
      intro p hp
      rcases mem_dictSet cats q.1 q.2 p hp with h | h
      · rw [h]
        exact nonNeg_of_valid q.2 q.1 (hl q (List.mem_cons_self q rest))
          (by simpa using hn)
      · exact hc p h

/-- The entries of a validated payload all have allowed keys and valid
values. -/
theorem payloadCats_entries (data : List (String × PyValue))
    (allowed : List String)
    (hb : (validate_benefit_categories allowed
        (pyGet data "benefit_categories")).1 = true) :
    ∀ p ∈ payloadCats data,
      p.1 ∈ allowed ∧ (validate_positive_integer p.2 p.1).1 = true := by
  rcases vbc_shape _ _ hb with hshape | ⟨l, hshape⟩
  · simp [payloadCats, hshape]
  · have hl : payloadCats data = l := by
      simp [payloadCats, hshape]
    rw [hl]
    rw [hshape] at hb
    exact vbc_fst_true_of_entries allowed l hb

theorem update_stats_preserves_inv (data : List (String × PyValue))
    (r : StatsRecord) (now : String) (h : StatsInv r) :
    StatsInv (update_stats data r now).2 := by
  obtain ⟨hdon, hkeys, hvals⟩ := h
  by_cases hd : (validate_positive_integer (pyGet data "donation") "donation").1 = true
  · by_cases hb : (validate_benefit_categories (r.benefit_categories.map Prod.fst)
        (pyGet data "benefit_categories")).1 = true
    · obtain ⟨-, hrec⟩ := update_stats_success data r now hd hb
      rw [hrec]
      have hentries := payloadCats_entries data
        (r.benefit_categories.map Prod.fst) hb
      refine ⟨?_, ?_, ?_⟩
      · by_cases hn : (pyGet data "donation").isNoneV
        · simpa [hn] using hdon
        · simp only [hn, Bool.false_eq_true, if_false]
          exact nonNeg_of_valid _ _ hd (by simpa using hn)
      · simp only
        rw [keys_applyCategories (payloadCats data) r.benefit_categories
          (fun p hp => (hentries p hp).1)]
        exact hkeys
      · exact nonNeg_applyCategories (payloadCats data) r.benefit_categories
          hvals (fun p hp => (hentries p hp).2)
    · have hfail := update_stats_failure data r now
        (Or.inr (by simpa using hb))
      rw [hfail.2.2]
      exact ⟨hdon, hkeys, hvals⟩
  · have hfail := update_stats_failure data r now
      (Or.inl (by simpa using hd))
    rw [hfail.2.2]
    exact ⟨hdon, hkeys, hvals⟩

/-- A sequence of `update_stats` calls, each with its payload and its
current timestamp, applied to the global record. -/
def runUpdates (calls : List (List (String × PyValue) × String))
    (r : StatsRecord) : StatsRecord :=
  calls.foldl (fun acc c => (update_stats c.1 acc c.2).2) r

theorem runUpdates_preserves_inv
    (calls : List (List (String × PyValue) × String)) (r : StatsRecord)
    (h : StatsInv r) : StatsInv (runUpdates calls r) := by
  induction calls generalizing r with
  | nil => exact h
  | cons c rest ih =>
    exact ih (update_stats c.1 r c.2).2
      (update_stats_preserves_inv c.1 r c.2 h)

theorem statsInv_seed (t0 : String) : StatsInv (MOCK_LOVE_STATS t0) := by
  refine ⟨⟨714649, rfl, by norm_num⟩, rfl, ?_⟩
  intro p hp
  simp only [MOCK_LOVE_STATS, seedBenefitCategories, List.mem_cons,
    List.not_mem_nil, or_false] at hp
  rcases hp with h|h|h|h|h|h|h|h <;> rw [h] <;>
    exact ⟨_, rfl, by norm_num⟩

/-- C3: starting from the seed record, after any sequence of `update_stats`
calls the `donation` field and every benefit-category value are Python ints
with numeric value ≥ 0, and the category key list is exactly the seed key
list — no update introduces a new key. -/
theorem c3_invariants_preserved (t0 : String)
    (calls : List (List (String × PyValue) × String)) :
    StatsInv (runUpdates calls (MOCK_LOVE_STATS t0)) :=
  runUpdates_preserves_inv calls (MOCK_LOVE_STATS t0) (statsInv_seed t0)

/-! ## RateLimiter lemmas -/

theorem windowOf_dictSet_self (s : RLState) (ip : String) (w : List Int) :
    windowOf (dictSet s ip w) ip = w := by
  simp [windowOf, lookup_dictSet_self]

theorem windowOf_dictSet_ne (s : RLState) (ip ip' : String) (w : List Int)
    (h : ip' ≠ ip) : windowOf (dictSet s ip w) ip' = windowOf s ip' := by
  simp [windowOf, lookup_dictSet_ne s ip ip' w h]

theorem windowOf_init (s : RLState) (ip : String) :
    windowOf (if (s.lookup ip).isNone then dictSet s ip [] else s) ip
      = windowOf s ip := by
  cases hl : s.lookup ip with
  | none =>
    rw [if_pos (by simp [hl]), windowOf_dictSet_self]
    simp [windowOf, hl]
  | some l => rw [if_neg (by simp [hl])]

/-- Characterisation of one `is_allowed` call: the result bit, the caller's
window after the call, and the frame on every other identifier's window. -/
theorem is_allowed_spec (s : RLState) (ip : String) (now : Int) :
    ((is_allowed s ip now).1
      = !decide (RATE_LIMIT_MAX ≤ (purgedWindow s ip now).length)) ∧
    windowOf (is_allowed s ip now).2 ip
      = (if RATE_LIMIT_MAX ≤ (purgedWindow s ip now).length
         then purgedWindow s ip now
         else purgedWindow s ip now ++ [now]) ∧
    ∀ ip', ip' ≠ ip →
      windowOf (is_allowed s ip now).2 ip' = windowOf s ip' := by
  have hpur : purgedWindow
      (if (s.lookup ip).isNone then dictSet s ip [] else s) ip now
      = purgedWindow s ip now := by
    simp [purgedWindow, windowOf_init]
  have hother : ∀ ip', ip' ≠ ip →
      windowOf (if (s.lookup ip).isNone then dictSet s ip [] else s) ip'
        = windowOf s ip' := by
    intro ip' hip
    cases hl : s.lookup ip with
    | none => simp [hl, windowOf_dictSet_ne _ _ _ _ hip]
    | some l => simp [hl]
  simp only [is_allowed, hpur]
  by_cases hlen : RATE_LIMIT_MAX ≤ (purgedWindow s ip now).length
  · simp only [if_pos hlen]
    refine ⟨by simp [hlen], by simp [hlen, windowOf_dictSet_self], ?_⟩
    intro ip' hip
    rw [windowOf_dictSet_ne _ _ _ _ hip]
    exact hother ip' hip
  · simp only [if_neg hlen]
    refine ⟨by simp [hlen], by simp [hlen, windowOf_dictSet_self], ?_⟩
    intro ip' hip
    rw [windowOf_dictSet_ne _ _ _ _ hip, windowOf_dictSet_ne _ _ _ _ hip]
    exact hother ip' hip

theorem runSeq_all_admitted (times : List Int) (acc : List Int) (s : RLState)
    (ip : String) (hwin : windowOf s ip = acc)
    (hlen : acc.length + times.length ≤ RATE_LIMIT_MAX)
    (hpair : ∀ t ∈ acc ++ times, ∀ u ∈ acc ++ times,
      t - u < RATE_LIMIT_WINDOW) :
    (runSeq s ip times).2 = List.replicate times.length true ∧
    windowOf (runSeq s ip times).1 ip = acc ++ times := by
  induction times generalizing s acc with
  | nil => simpa [runSeq] using hwin
  | cons t ts ih =>
    have hfilter : purgedWindow s ip t = acc := by
      rw [purgedWindow, hwin]
      apply List.filter_eq_self.mpr
      intro u hu
      have := hpair t (by simp) u (by simp [hu])
      simpa using this
    have hspec := is_allowed_spec s ip t
    have hlt : ¬ RATE_LIMIT_MAX ≤ (purgedWindow s ip t).length := by
      rw [hfilter]
      simp only [List.length_cons] at hlen
      omega
    have hres : (is_allowed s ip t).1 = true := by
      rw [hspec.1]
      simp [hlt]
    have hwin' : windowOf (is_allowed s ip t).2 ip = acc ++ [t] := by
      rw [hspec.2.1, if_neg hlt, hfilter]
    have hih := ih (acc ++ [t]) (is_allowed s ip t).2 hwin'
      (by simp only [List.length_append, List.length_cons,
        List.length_nil] at hlen ⊢; omega)
      (by
        intro a ha b hb
        apply hpair <;> simp only [List.append_assoc, List.singleton_append,
          List.mem_append, List.mem_cons] at ha hb ⊢ <;> tauto)
    refine ⟨?_, ?_⟩
    · simp only [runSeq, hih.1, hres, List.length_cons, List.replicate_succ]
    · simpa [runSeq, List.append_assoc] using hih.2

theorem runSeq_append (s : RLState) (ip : String) (xs ys : List Int) :
    runSeq s ip (xs ++ ys) =
      ((runSeq (runSeq s ip xs).1 ip ys).1,
       (runSeq s ip xs).2 ++ (runSeq (runSeq s ip xs).1 ip ys).2) := by
  induction xs generalizing s with
  | nil => simp [runSeq]
  | cons x xs ih => simp [runSeq, ih]

/-- C2: one `is_allowed` call first purges stale timestamps; with 100 or
more remaining it returns `false` and records nothing, otherwise it appends
the current timestamp and returns `true`.  Consequently, from a fresh
state, any sequence of at most 100 requests whose timestamps pairwise
differ by less than the 60-second window is fully admitted, and in a
101-request sequence the 101st is rejected. -/
theorem c2_rate_limiter (ip : String) (now : Int) (s : RLState)
    (times : List Int)
    (hpair : ∀ t ∈ times, ∀ u ∈ times, t - u < RATE_LIMIT_WINDOW) :
    ((RATE_LIMIT_MAX ≤ (purgedWindow s ip now).length →
        (is_allowed s ip now).1 = false ∧
        windowOf (is_allowed s ip now).2 ip = purgedWindow s ip now) ∧
     ((purgedWindow s ip now).length < RATE_LIMIT_MAX →
        (is_allowed s ip now).1 = true ∧
        windowOf (is_allowed s ip now).2 ip
          = purgedWindow s ip now ++ [now])) ∧
    (times.length ≤ RATE_LIMIT_MAX →
      (runSeq [] ip times).2 = List.replicate times.length true) ∧
    (times.length = RATE_LIMIT_MAX + 1 →
      (runSeq [] ip times).2
        = List.replicate RATE_LIMIT_MAX true ++ [false]) := by
  have hspec := is_allowed_spec s ip now
  have hempty : windowOf ([] : RLState) ip = [] := rfl
  refine ⟨⟨?_, ?_⟩, ?_, ?_⟩
  · intro hge
    exact ⟨by rw [hspec.1]; simp [hge], by rw [hspec.2.1, if_pos hge]⟩
  · intro hlt
    have hnot : ¬ RATE_LIMIT_MAX ≤ (purgedWindow s ip now).length := by
      omega
    exact ⟨by rw [hspec.1]; simp [hnot],
      by rw [hspec.2.1, if_neg hnot]⟩
  · intro hle
    exact (runSeq_all_admitted times [] [] ip hempty (by simpa using hle)
      (by simpa using hpair)).1
  · intro h101
    have hsplit : times = times.take RATE_LIMIT_MAX ++ times.drop RATE_LIMIT_MAX :=
      (List.take_append_drop RATE_LIMIT_MAX times).symm
    have htake : (times.take RATE_LIMIT_MAX).length = RATE_LIMIT_MAX := by
      rw [List.length_take, h101]
      omega
    have hdrop : (times.drop RATE_LIMIT_MAX).length = 1 := by
      rw [List.length_drop, h101]
      omega
    obtain ⟨t101, hys⟩ := List.length_eq_one.mp hdrop
    have hsub1 : ∀ u ∈ times.take RATE_LIMIT_MAX, u ∈ times :=
      fun u hu => List.take_subset _ _ hu
    have h101mem : t101 ∈ times := by
      apply List.drop_subset RATE_LIMIT_MAX
      rw [hys]
      simp
    have hfirst := runSeq_all_admitted (times.take RATE_LIMIT_MAX) [] [] ip
      hempty (by simp [htake])
      (by
        intro a ha b hb
        simp only [List.nil_append] at ha hb
        exact hpair a (hsub1 a ha) b (hsub1 b hb))
    -- the state after the first 100 requests holds exactly those timestamps
    have hstate : windowOf (runSeq [] ip (times.take RATE_LIMIT_MAX)).1 ip
        = times.take RATE_LIMIT_MAX := by
      simpa using hfirst.2
    -- the 101st call finds a full window: everything survives the purge
    have hpurge : purgedWindow (runSeq [] ip (times.take RATE_LIMIT_MAX)).1
        ip t101 = times.take RATE_LIMIT_MAX := by
      rw [purgedWindow, hstate]
      apply List.filter_eq_self.mpr
      intro u hu
      have := hpair t101 h101mem u (hsub1 u hu)
      simpa using this
    have hlast := is_allowed_spec (runSeq [] ip (times.take RATE_LIMIT_MAX)).1
      ip t101
    have hfull : RATE_LIMIT_MAX ≤ (purgedWindow
        (runSeq [] ip (times.take RATE_LIMIT_MAX)).1 ip t101).length := by
      rw [hpurge, htake]
    have hrej : (is_allowed (runSeq [] ip (times.take RATE_LIMIT_MAX)).1
        ip t101).1 = false := by
      rw [hlast.1]
      simp [hfull]
    calc (runSeq [] ip times).2
        = (runSeq [] ip (times.take RATE_LIMIT_MAX ++ times.drop RATE_LIMIT_MAX)).2 := by
          rw [← hsplit]
      _ = List.replicate RATE_LIMIT_MAX true ++ [false] := by
          rw [runSeq_append, hys]
          rw [show (runSeq [] ip (times.take RATE_LIMIT_MAX)).2
              = List.replicate RATE_LIMIT_MAX true from by
            simpa [htake] using hfirst.1]
          simp [runSeq, hrej]

/-- Witness for C2: three requests at time 0 are all admitted. -/
theorem c2_witness :
    (∀ t ∈ [(0 : Int), 0, 0], ∀ u ∈ [(0 : Int), 0, 0],
      t - u < RATE_LIMIT_WINDOW) ∧
    (runSeq [] "a" [0, 0, 0]).2 = List.replicate 3 true :=
  ⟨by decide,
    (c2_rate_limiter "a" 0 [] [0, 0, 0] (by decide)).2.1 (by decide)⟩

/-- C4: when an `is_allowed` check completes, the checked identifier's
window contains no timestamp older than `now - RATE_LIMIT_WINDOW`. -/
theorem c4_no_stale_timestamps (s : RLState) (ip : String) (now : Int) :
    ∀ t ∈ windowOf (is_allowed s ip now).2 ip,
      ¬ (t < now - RATE_LIMIT_WINDOW) := by
  intro t ht
  rw [(is_allowed_spec s ip now).2.1] at ht
  by_cases hlen : RATE_LIMIT_MAX ≤ (purgedWindow s ip now).length
  · rw [if_pos hlen] at ht
    have := List.of_mem_filter ht
    have hlt : now - t < RATE_LIMIT_WINDOW := by simpa using this
    omega
  · rw [if_neg hlen] at ht
    rcases List.mem_append.mp ht with hmem | hmem
    · have := List.of_mem_filter hmem
      have hlt : now - t < RATE_LIMIT_WINDOW := by simpa using this
      omega
    · have ht' : t = now := by simpa using hmem
      subst ht'
      rw [RATE_LIMIT_WINDOW]
      omega

/-- Witness for C4: after a first request at time 0, the recorded
timestamp 0 is not older than `0 - 60`. -/
theorem c4_witness :
    (0 : Int) ∈ windowOf (is_allowed [] "a" 0).2 "a" ∧
    ¬ ((0 : Int) < 0 - RATE_LIMIT_WINDOW) :=
  ⟨by decide, c4_no_stale_timestamps [] "a" 0 0 (by decide)⟩

theorem is_allowed_length_le (s : RLState) (ip : String) (now : Int)
    (h : ∀ ip', (windowOf s ip').length ≤ RATE_LIMIT_MAX) :
    ∀ ip', (windowOf (is_allowed s ip now).2 ip').length ≤ RATE_LIMIT_MAX := by
  intro ip'
  by_cases hip : ip' = ip
  · subst hip
    rw [(is_allowed_spec s ip' now).2.1]
    have hfle : (purgedWindow s ip' now).length ≤ (windowOf s ip').length :=
      List.length_filter_le _ _
    by_cases hlen : RATE_LIMIT_MAX ≤ (purgedWindow s ip' now).length
    · rw [if_pos hlen]
      exact le_trans hfle (h ip')
    · rw [if_neg hlen]
      simp only [List.length_append, List.length_singleton]
      omega
  · rw [(is_allowed_spec s ip now).2.2 ip' hip]
    exact h ip'

/-- C8: after any sequence of `is_allowed` calls from the initial state,
every identifier's window holds at most `RATE_LIMIT_MAX` timestamps: a
rejected call records nothing, so a window never grows past the maximum. -/
theorem c8_window_bounded (calls : List (String × Int)) (ip : String) :
    (windowOf (runLimiter calls) ip).length ≤ RATE_LIMIT_MAX := by
  have hgen : ∀ (cs : List (String × Int)) (s : RLState),
      (∀ ip', (windowOf s ip').length ≤ RATE_LIMIT_MAX) →
      ∀ ip', (windowOf
        (cs.foldl (fun s c => (is_allowed s c.1 c.2).2) s) ip').length
          ≤ RATE_LIMIT_MAX := by
    intro cs
    induction cs with
    | nil => intro s h ip'; exact h ip'
    | cons c rest ih =>
      intro s h ip'
      exact ih (is_allowed s c.1 c.2).2 (is_allowed_length_le s c.1 c.2 h) ip'
  exact hgen calls [] (fun ip' => by simp [windowOf, List.lookup]) ip

/-! ## Heap lemmas and C5 -/

theorem getD_append_self {α : Type} (l : List α) (d x : α) :
    (l ++ [d]).getD l.length x = d := by
  induction l with
  | nil => rfl
  | cons a t ih => simp only [List.cons_append, List.length_cons,
      List.getD_cons_succ, ih]

theorem getD_append_left {α : Type} (l l' : List α) (n : Nat) (x : α)
    (h : n < l.length) : (l ++ l').getD n x = l.getD n x := by
  induction l generalizing n with
  | nil => simp at h
  | cons a t ih =>
    cases n with
    | zero => rfl
    | succ m =>
      simpa [List.getD_cons_succ] using ih m (by simpa using h)

theorem getD_set_ne {α : Type} (l : List α) (n m : Nat) (v x : α)
    (h : n ≠ m) : (l.set n v).getD m x = l.getD m x := by
  induction l generalizing n m with
  | nil => rfl
  | cons a t ih =>
    cases n with
    | zero =>
      cases m with
      | zero => exact absurd rfl h
      | succ m' => rfl
    | succ n' =>
      cases m with
      | zero => rfl
      | succ m' =>
        simpa [List.getD_cons_succ] using ih n' m' (fun he => h (by rw [he]))

theorem getD_set_self {α : Type} (l : List α) (n : Nat) (v x : α)
    (h : n < l.length) : (l.set n v).getD n x = v := by
  induction l generalizing n with
  | nil => simp at h
  | cons a t ih =>
    cases n with
    | zero => rfl
    | succ n' =>
      simpa [List.getD_cons_succ] using ih n' (by simpa using h)

/-- C5 (amended): `get_current_stats` always succeeds and returns a
*shallow* copy: a fresh top-level dict (so mutating or replacing the
returned top-level object leaves the stored record untouched) agreeing
with the stored record on every key except the added `updatedAt` — in
particular its `benefit_categories` entry is the very same reference the
stored record holds, so the nested mapping is shared, not copied. -/
theorem c5_get_current_stats_shallow_copy (h : Heap) (now : String)
    (hne : 0 < h.cells.length) :
    (get_current_stats h now).2 ≠ statsAddr ∧
    (get_current_stats h now).1.read statsAddr = h.read statsAddr ∧
    (∀ k, k ≠ "updatedAt" →
      ((get_current_stats h now).1.read (get_current_stats h now).2).lookup k
        = (h.read statsAddr).lookup k) ∧
    (∀ d : HDict,
      ((get_current_stats h now).1.write (get_current_stats h now).2 d).read
        statsAddr = h.read statsAddr) := by
  have hstats : get_current_stats h now
      = (Heap.write ⟨h.cells ++ [h.read statsAddr]⟩ h.cells.length
          (match (Heap.read ⟨h.cells ++ [h.read statsAddr]⟩
              h.cells.length).lookup "last_updated" with
           | some v =>
             dictSet (Heap.read ⟨h.cells ++ [h.read statsAddr]⟩
               h.cells.length) "updatedAt" v
           | Option.none =>
             dictSet (Heap.read ⟨h.cells ++ [h.read statsAddr]⟩
               h.cells.length) "updatedAt" (.str now)),
         h.cells.length) := rfl
  have hbase : Heap.read ⟨h.cells ++ [h.read statsAddr]⟩ h.cells.length
      = h.read statsAddr := getD_append_self h.cells (h.read statsAddr) []
  have haddr : h.cells.length ≠ statsAddr := by
    rw [statsAddr]
    omega
  obtain ⟨v, hv⟩ : ∃ v,
      (match (Heap.read ⟨h.cells ++ [h.read statsAddr]⟩
          h.cells.length).lookup "last_updated" with
       | some w =>
         dictSet (Heap.read ⟨h.cells ++ [h.read statsAddr]⟩
           h.cells.length) "updatedAt" w
       | Option.none =>
         dictSet (Heap.read ⟨h.cells ++ [h.read statsAddr]⟩
           h.cells.length) "updatedAt" (.str now))
      = dictSet (Heap.read ⟨h.cells ++ [h.read statsAddr]⟩
          h.cells.length) "updatedAt" v := by
    cases (Heap.read ⟨h.cells ++ [h.read statsAddr]⟩
        h.cells.length).lookup "last_updated" with
    | some w => exact ⟨w, rfl⟩
    | none => exact ⟨.str now, rfl⟩
  refine ⟨by rw [hstats]; exact haddr, ?_, ?_, ?_⟩
  · rw [hstats]
    show ((h.cells ++ [h.read statsAddr]).set h.cells.length _).getD statsAddr []
      = h.read statsAddr
    rw [getD_set_ne _ _ _ _ _ haddr,
      getD_append_left _ _ _ _ (by rw [statsAddr]; omega)]
    rfl
  · intro k hk
    rw [hstats]
    show (((h.cells ++ [h.read statsAddr]).set h.cells.length _).getD
        h.cells.length []).lookup k = (h.read statsAddr).lookup k
    rw [hv, getD_set_self _ _ _ _ (by simp [List.length_append]),
      lookup_dictSet_ne _ _ _ _ hk, hbase]
  · intro d
    rw [hstats]
    show ((((h.cells ++ [h.read statsAddr]).set h.cells.length _).set
        h.cells.length d).getD statsAddr []) = h.read statsAddr
    rw [getD_set_ne _ _ _ _ _ haddr, getD_set_ne _ _ _ _ _ haddr,
      getD_append_left _ _ _ _ (by rw [statsAddr]; omega)]
    rfl

/-- Witness for C5 (amended): at the import-time heap, the snapshot lives
at a fresh address. -/
theorem c5_witness :
    0 < (initHeap "t0").cells.length ∧
    (get_current_stats (initHeap "t0") "n").2 ≠ statsAddr :=
  ⟨by decide,
    (c5_get_current_stats_shallow_copy (initHeap "t0") "n" (by decide)).1⟩

/-- C5 counterexample: the claim "no mutation performed on the returned
value (including on its nested benefitCategories mapping) changes the
stored record" is false.  `dict.copy()` is shallow: writing
`snapshot["benefit_categories"]["allpass"] = 0` through the dict returned
by `get_current_stats` changes the value read through the *stored*
record's `benefit_categories` reference from 78807 to 0. -/
theorem c5_counterexample :
    readStoredCategory (initHeap "t0") "allpass" = some (.int 78807) ∧
    readStoredCategory
      (mutateSnapshotCategory (get_current_stats (initHeap "t0") "n").1
        (get_current_stats (initHeap "t0") "n").2 "allpass" (.int 0))
      "allpass" = some (.int 0) :=
  ⟨rfl, rfl⟩

end MZPJ
